import Mathlib

/-!
Shallow embedding of the lead-pipeline view-model logic of the ai-sdr
dashboard, together with proofs of its specified properties.

Source files embedded:
- src/lib/leadUtils.ts (stage inference)
- src/components/views/Dashboard.tsx (funnel aggregation)
- src/components/views/ActiveCampaigns.tsx (search/filter/sort/paginate
  pipeline, booked-meetings analytics, optimistic status updates)
- src/components/views/RepliesEngagement.tsx (pagination constants,
  optimistic status updates)

Modelling conventions:
- TypeScript string fields that are optional/nullable are `Option String`;
  `none` stands for both `null` and `undefined` (the code only ever
  distinguishes them from defined values, never from each other).
- Nullable boolean columns are modelled by their JavaScript truthiness as
  `Bool` (`null`/`undefined` coalesce to `false`), which is how every use
  site reads them (`if (lead.day_4_sent)`, `filter(lead => lead.replied)`).
- JavaScript numbers are modelled as `ℕ`/`ℤ`/`ℚ` (counts are small integers
  and the percentage formulas are exact rational arithmetic).
- `Array.prototype.sort(cmp)` is modelled as a stable insertion sort driven
  by the comparator (ECMAScript requires sort to be stable; for a consistent
  comparator every stable comparator-respecting sort computes the same list).
- Fields of the `Lead` row that no embedded computation reads (video ids,
  message ids, email bodies, JSON blobs) are omitted from the record.
-/

/-- The `Lead` row type (src/lib/supabase.ts), restricted to the fields the
embedded view-model logic reads. -/
structure Lead where
  id : String
  email : String
  fullname : Option String
  company_name : Option String
  job_title : Option String
  industry : Option String
  company_size : Option String
  stage : Option String
  lead_source : Option String
  campaign_id : Option String
  replied : Bool
  booked : Bool
  day_1_sent : Bool
  day_2_sent : Bool
  day_3_sent : Bool
  day_4_sent : Bool
  day_1_sent_at : Option String
  day_2_sent_at : Option String
  day_3_sent_at : Option String
  day_4_sent_at : Option String
  created_at : Option String
  last_updated_at : Option String
  booked_at : Option String
deriving DecidableEq, Repr

/-- src/lib/leadUtils.ts, `getCurrentStage`. -/
def getCurrentStage (lead : Lead) : String :=
  if lead.day_4_sent then "Day 4 Sent"
  else if lead.day_3_sent then "Day 3 Sent"
  else if lead.day_2_sent then "Day 2 Sent"
  else if lead.day_1_sent then "Day 1 Sent"
  else "Not Started"

/-- src/lib/leadUtils.ts, `getNextStage`. -/
def getNextStage (lead : Lead) : String :=
  if !lead.day_1_sent then "Awaiting Day 1"
  else if !lead.day_2_sent then "Awaiting Day 2"
  else if !lead.day_3_sent then "Awaiting Day 3"
  else if !lead.day_4_sent then "Awaiting Day 4"
  else "Sequence Complete"

/-- The `day_N_sent` flag of a lead, indexed by the step number `1..4`
(out-of-range indices are `false`). -/
def daySent (lead : Lead) : ℕ → Bool
  | 1 => lead.day_1_sent
  | 2 => lead.day_2_sent
  | 3 => lead.day_3_sent
  | 4 => lead.day_4_sent
  | _ => false

/-- `getCurrentStage` as a function of the four flags alone. -/
def stageOfFlags (d1 d2 d3 d4 : Bool) : String :=
  if d4 then "Day 4 Sent"
  else if d3 then "Day 3 Sent"
  else if d2 then "Day 2 Sent"
  else if d1 then "Day 1 Sent"
  else "Not Started"

/-- `getNextStage` as a function of the four flags alone. -/
def nextOfFlags (d1 d2 d3 d4 : Bool) : String :=
  if !d1 then "Awaiting Day 1"
  else if !d2 then "Awaiting Day 2"
  else if !d3 then "Awaiting Day 3"
  else if !d4 then "Awaiting Day 4"
  else "Sequence Complete"

/-- `daySent` as a function of the four flags alone. -/
def sentFlag (d1 d2 d3 d4 : Bool) : ℕ → Bool
  | 1 => d1
  | 2 => d2
  | 3 => d3
  | 4 => d4
  | _ => false

/-- A concrete lead with an out-of-order gap: day 1 and day 3 sent, day 2
and day 4 not sent. -/
def gapLead : Lead :=
  { id := "lead-1", email := "a@example.com", fullname := some "Ada A",
    company_name := some "Acme", job_title := none, industry := some "Tech",
    company_size := none, stage := some "contacted", lead_source := some "linkedin",
    campaign_id := none, replied := false, booked := false,
    day_1_sent := true, day_2_sent := false, day_3_sent := true, day_4_sent := false,
    day_1_sent_at := some "2024-01-01T00:00:00Z", day_2_sent_at := none,
    day_3_sent_at := some "2024-01-03T00:00:00Z", day_4_sent_at := none,
    created_at := some "2024-01-01T00:00:00Z",
    last_updated_at := some "2024-01-03T00:00:00Z", booked_at := none }

/-- Funnel row shape (Dashboard.tsx, `FunnelStage`). -/
structure FunnelStage where
  name : String
  count : ℕ
  percentage : ℚ
deriving DecidableEq, Repr

/-- Dashboard.tsx: `const day1Sent = leadsData.filter(lead => lead.day_1_sent).length`. -/
def day1SentCount (leads : List Lead) : ℕ := (leads.filter fun l => l.day_1_sent).length

def day2SentCount (leads : List Lead) : ℕ := (leads.filter fun l => l.day_2_sent).length

def day3SentCount (leads : List Lead) : ℕ := (leads.filter fun l => l.day_3_sent).length

def day4SentCount (leads : List Lead) : ℕ := (leads.filter fun l => l.day_4_sent).length

def repliedCount (leads : List Lead) : ℕ := (leads.filter fun l => l.replied).length

def bookedCount (leads : List Lead) : ℕ := (leads.filter fun l => l.booked).length

/-- Dashboard.tsx: `Math.max(day1Sent, day2Sent, day3Sent, day4Sent, replied, booked, 1)`. -/
def funnelMaxCount (leads : List Lead) : ℕ :=
  max (max (max (max (max (max (day1SentCount leads) (day2SentCount leads))
    (day3SentCount leads)) (day4SentCount leads)) (repliedCount leads)) (bookedCount leads)) 1

/-- Dashboard.tsx: the `setFunnelStages([...])` array. -/
def funnelStages (leads : List Lead) : List FunnelStage :=
  [⟨"Day 1 Sent", day1SentCount leads,
      (day1SentCount leads : ℚ) / (funnelMaxCount leads : ℚ) * 100⟩,
    ⟨"Day 2 Sent", day2SentCount leads,
      (day2SentCount leads : ℚ) / (funnelMaxCount leads : ℚ) * 100⟩,
    ⟨"Day 3 Sent", day3SentCount leads,
      (day3SentCount leads : ℚ) / (funnelMaxCount leads : ℚ) * 100⟩,
    ⟨"Day 4 Sent", day4SentCount leads,
      (day4SentCount leads : ℚ) / (funnelMaxCount leads : ℚ) * 100⟩,
    ⟨"Replied", repliedCount leads,
      (repliedCount leads : ℚ) / (funnelMaxCount leads : ℚ) * 100⟩,
    ⟨"Booked", bookedCount leads,
      (bookedCount leads : ℚ) / (funnelMaxCount leads : ℚ) * 100⟩]

/-- The spec's shared funnel denominator: the maximum of the six checkpoint
counts, floored at 1, written with `countP`. -/
def specFunnelDenom (leads : List Lead) : ℕ :=
  max (leads.countP fun l => l.day_1_sent)
    (max (leads.countP fun l => l.day_2_sent)
      (max (leads.countP fun l => l.day_3_sent)
        (max (leads.countP fun l => l.day_4_sent)
          (max (leads.countP fun l => l.replied)
            (max (leads.countP fun l => l.booked) 1)))))

/-- The six funnel checkpoints, in order. -/
inductive Checkpoint
  | d1Sent
  | d2Sent
  | d3Sent
  | d4Sent
  | repliedCk
  | bookedCk
deriving DecidableEq, Repr

/-- The six checkpoint counts of one funnel aggregation. -/
structure FunnelCounts where
  d1 : ℕ
  d2 : ℕ
  d3 : ℕ
  d4 : ℕ
  rep : ℕ
  bkd : ℕ
deriving DecidableEq, Repr

/-- The count of one checkpoint. -/
def countAt (c : FunnelCounts) : Checkpoint → ℕ
  | .d1Sent => c.d1
  | .d2Sent => c.d2
  | .d3Sent => c.d3
  | .d4Sent => c.d4
  | .repliedCk => c.rep
  | .bookedCk => c.bkd

/-- Replace the count of one checkpoint. -/
def setAt (c : FunnelCounts) : Checkpoint → ℕ → FunnelCounts
  | .d1Sent, x => { c with d1 := x }
  | .d2Sent, x => { c with d2 := x }
  | .d3Sent, x => { c with d3 := x }
  | .d4Sent, x => { c with d4 := x }
  | .repliedCk, x => { c with rep := x }
  | .bookedCk, x => { c with bkd := x }

/-- `Math.max(day1Sent, ..., booked, 1)` over a vector of checkpoint counts
(Dashboard.tsx line 81). -/
def maxCountOf (c : FunnelCounts) : ℕ :=
  max (max (max (max (max (max c.d1 c.d2) c.d3) c.d4) c.rep) c.bkd) 1

/-- The percentage the funnel assigns to checkpoint `i` given the six
counts: `count / max(counts, 1) * 100` (Dashboard.tsx lines 84-89). -/
def stagePercentage (c : FunnelCounts) (i : Checkpoint) : ℚ :=
  (countAt c i : ℚ) / (maxCountOf c : ℚ) * 100

/-- The six counts the Dashboard computes for a collection. -/
def funnelCounts (leads : List Lead) : FunnelCounts :=
  ⟨day1SentCount leads, day2SentCount leads, day3SentCount leads,
    day4SentCount leads, repliedCount leads, bookedCount leads⟩

/-- A concrete six-count vector for the C3 witness. -/
def demoCounts : FunnelCounts := ⟨5, 4, 3, 2, 1, 0⟩

/-- JavaScript `String.prototype.includes`: substring containment. -/
def jsIncludes (s sub : String) : Bool := decide (sub.toList <:+: s.toList)

/-- `field?.toLowerCase().includes(term.toLowerCase())` with optional
chaining: an absent field is falsy. -/
def optIncludes (field : Option String) (term : String) : Bool :=
  match field with
  | none => false
  | some s => jsIncludes s.toLower term.toLower

/-- ActiveCampaigns.tsx lines 77-80: the free-text search predicate; an
empty term matches everything, otherwise the lowercased term must occur in
fullname, email, or company name. -/
def searchMatch (term : String) (l : Lead) : Bool :=
  decide (term = "") || optIncludes l.fullname term ||
    jsIncludes l.email.toLower term.toLower || optIncludes l.company_name term

/-- The three field-equality filters of the Active Campaigns view; the
empty string means "no constraint". -/
structure Filters where
  stage : String
  lead_source : String
  industry : String
deriving DecidableEq, Repr

/-- One equality filter: `!filters.f || lead.f === filters.f`. -/
def eqFilter (fval : Option String) (sel : String) : Bool :=
  decide (sel = "") ||
    match fval with
    | some s => decide (s = sel)
    | none => false

/-- ActiveCampaigns.tsx lines 75-91: the combined search-and-filters
predicate of `filteredLeads`. -/
def leadMatches (term : String) (f : Filters) (l : Lead) : Bool :=
  searchMatch term l && eqFilter l.stage f.stage &&
    eqFilter l.lead_source f.lead_source && eqFilter l.industry f.industry

/-- ActiveCampaigns.tsx line 74: `leads.filter(...)`. -/
def filteredLeads (term : String) (f : Filters) (leads : List Lead) : List Lead :=
  leads.filter (leadMatches term f)

/-- All filters empty: no constraint. -/
def emptyFilters : Filters := ⟨"", "", ""⟩

/-- The sortable columns (`sortColumn: keyof Lead`), restricted to the
fields carried by the embedded `Lead` record. -/
inductive Column
  | id
  | email
  | fullname
  | company_name
  | job_title
  | industry
  | company_size
  | stage
  | lead_source
  | campaign_id
  | replied
  | booked
  | day_1_sent
  | day_2_sent
  | day_3_sent
  | day_4_sent
  | day_1_sent_at
  | day_2_sent_at
  | day_3_sent_at
  | day_4_sent_at
  | created_at
  | last_updated_at
  | booked_at
deriving DecidableEq, Repr

/-- A JavaScript value read from a lead column: a string, a boolean, or
null/undefined. -/
inductive ColVal
  | vNull
  | vStr (s : String)
  | vBool (b : Bool)
deriving DecidableEq, Repr

/-- Lift an optional string column to a `ColVal`. -/
def optVal : Option String → ColVal
  | none => .vNull
  | some s => .vStr s

/-- `lead[sortColumn]` as a `ColVal`. -/
def colVal (col : Column) (l : Lead) : ColVal :=
  match col with
  | .id => .vStr l.id
  | .email => .vStr l.email
  | .fullname => optVal l.fullname
  | .company_name => optVal l.company_name
  | .job_title => optVal l.job_title
  | .industry => optVal l.industry
  | .company_size => optVal l.company_size
  | .stage => optVal l.stage
  | .lead_source => optVal l.lead_source
  | .campaign_id => optVal l.campaign_id
  | .replied => .vBool l.replied
  | .booked => .vBool l.booked
  | .day_1_sent => .vBool l.day_1_sent
  | .day_2_sent => .vBool l.day_2_sent
  | .day_3_sent => .vBool l.day_3_sent
  | .day_4_sent => .vBool l.day_4_sent
  | .day_1_sent_at => optVal l.day_1_sent_at
  | .day_2_sent_at => optVal l.day_2_sent_at
  | .day_3_sent_at => optVal l.day_3_sent_at
  | .day_4_sent_at => optVal l.day_4_sent_at
  | .created_at => optVal l.created_at
  | .last_updated_at => optVal l.last_updated_at
  | .booked_at => optVal l.booked_at

/-- JavaScript `<` on two same-typed primitive column values (strings
compare lexicographically, `false < true`); comparisons between values of
different types never occur for a fixed column and are `false` here. -/
def ltVal : ColVal → ColVal → Bool
  | .vStr a, .vStr b => decide (a < b)
  | .vBool a, .vBool b => !a && b
  | _, _ => false

/-- Sort direction. -/
inductive SortDir
  | asc
  | desc
deriving DecidableEq, Repr

/-- ActiveCampaigns.tsx lines 97-108: the sort comparator. Null/undefined
values compare after everything (the direction flip is applied only to the
value comparison, not to the null checks); `a > b` is JavaScript's `b < a`. -/
def leadCmp (col : Column) (dir : SortDir) (a b : Lead) : ℤ :=
  let aValue := colVal col a
  let bValue := colVal col b
  if aValue = .vNull then 1
  else if bValue = .vNull then -1
  else
    let c0 : ℤ := if ltVal aValue bValue then -1 else 0
    let comparison : ℤ := if ltVal bValue aValue then 1 else c0
    if dir = .desc then -comparison else comparison

/-- Stable insertion into a sorted prefix: the new element goes before the
first element it compares `≤` to, hence after any earlier equal elements. -/
def insertSorted (le : α → α → Bool) (x : α) : List α → List α
  | [] => [x]
  | y :: ys => if le x y then x :: y :: ys else y :: insertSorted le x ys

/-- Stable comparator-driven sort modelling `Array.prototype.sort(cmp)`
(ECMAScript guarantees a stable sort; for a consistent comparator any
stable comparator-respecting sort yields this list). -/
def sortByCmp (cmp : α → α → ℤ) : List α → List α
  | [] => []
  | x :: xs => insertSorted (fun a b => cmp a b ≤ 0) x (sortByCmp cmp xs)

/-- ActiveCampaigns.tsx line 96: `[...filteredLeads].sort((a, b) => ...)`. -/
def sortedLeads (col : Column) (dir : SortDir) (leads : List Lead) : List Lead :=
  sortByCmp (leadCmp col dir) leads

/-- The search → filters → sort part of the pipeline. -/
def pipelineSFS (term : String) (f : Filters) (col : Column) (dir : SortDir)
    (leads : List Lead) : List Lead :=
  sortedLeads col dir (filteredLeads term f leads)

/-- JavaScript `Array.prototype.slice(a, b)` for `0 ≤ a ≤ b`. -/
def jsSlice (l : List α) (a b : ℕ) : List α := (l.drop a).take (b - a)

/-- ActiveCampaigns.tsx lines 114-116: the 1-based page `p` of the list,
`slice((p-1)*pageSize, p*pageSize)`. -/
def currentLeads (pageSize page : ℕ) (l : List α) : List α :=
  jsSlice l ((page - 1) * pageSize) (page * pageSize)

/-- `Math.ceil(n / pageSize)` (real-valued division in JavaScript). -/
def totalPages (n pageSize : ℕ) : ℤ := ⌈(n : ℚ) / (pageSize : ℚ)⌉

/-- RepliesEngagement.tsx line 18: `useState(20)`. -/
def leadsPerPageReplies : ℕ := 20

/-- ActiveCampaigns.tsx line 22 (and the other list views): `useState(25)`. -/
def leadsPerPageCampaigns : ℕ := 25

/-- The value comparison computed by the comparator body
(`comparison` in the source). -/
def valComparison (u v : ColVal) : ℤ :=
  if ltVal v u then 1 else if ltVal u v then -1 else 0

/-- "Nulls after defined values": once a null-column lead appears, every
later lead's column value is also null. -/
def NullsLast (col : Column) (l : List Lead) : Prop :=
  l.Pairwise (fun a b => colVal col a = .vNull → colVal col b = .vNull)

/-- Leads whose sort-column value is null. -/
def isNullCol (col : Column) (l : Lead) : Bool := decide (colVal col l = .vNull)

/-- Two leads whose `last_updated_at` is null. -/
def nullLeadA : Lead :=
  { gapLead with id := "n1", email := "n1@example.com", last_updated_at := none }

def nullLeadB : Lead :=
  { gapLead with id := "n2", email := "n2@example.com", last_updated_at := none }

/-- The two grouping fields of the booked-meetings analytics. -/
inductive GroupField
  | industry
  | source
deriving DecidableEq, Repr

def fieldOf : GroupField → Lead → Option String
  | .industry, l => l.industry
  | .source, l => l.lead_source

/-- `lead.industry || 'Unknown'`: null, undefined, and the empty string are
all falsy, so they bucket under "Unknown" (ActiveCampaigns.tsx 1146/1152). -/
def groupKey (g : GroupField) (l : Lead) : String :=
  match fieldOf g l with
  | none => "Unknown"
  | some s => if s = "" then "Unknown" else s

/-- One `acc[key] = (acc[key] || 0) + 1` step of the reduce, on an
insertion-ordered table (JavaScript objects keep string-key insertion
order). -/
def bump (k : String) : List (String × ℕ) → List (String × ℕ)
  | [] => [(k, 1)]
  | (k2, c) :: rest => if k2 = k then (k2, c + 1) :: rest else (k2, c) :: bump k rest

/-- The `reduce` building `industryStats` / `sourceStats`
(ActiveCampaigns.tsx 1145-1155). -/
def groupCounts (g : GroupField) (leads : List Lead) : List (String × ℕ) :=
  leads.foldl (fun acc l => bump (groupKey g l) acc) []

/-- One `{name, count, percentage}` analytics row. -/
structure GroupStat where
  name : String
  count : ℕ
  percentage : ℚ
deriving DecidableEq, Repr

/-- `.sort((a, b) => b.count - a.count)`. -/
def analyticsCmp (a b : GroupStat) : ℤ := (b.count : ℤ) - (a.count : ℤ)

/-- `BookedMeetings.analytics` for one grouping field
(ActiveCampaigns.tsx 1157-1163): map the grouped counts to
`{name, count, percentage: count / leads.length * 100}` and sort by count
descending. -/
def analyticsBreakdown (g : GroupField) (leads : List Lead) : List GroupStat :=
  sortByCmp analyticsCmp
    ((groupCounts g leads).map fun p =>
      ⟨p.1, p.2, (p.2 : ℚ) / (leads.length : ℚ) * 100⟩)

/-- First-match lookup of a key's count in the table (0 when absent). -/
def keyCount (k : String) : List (String × ℕ) → ℕ
  | [] => 0
  | (k2, c) :: rest => if k2 = k then c else keyCount k rest

/-- A booked lead with no industry. -/
def unknownIndustryLead : Lead :=
  { gapLead with id := "u1", email := "u1@example.com", industry := none, booked := true }

/-- A booked lead with an empty-string industry. -/
def emptyIndustryLead : Lead :=
  { gapLead with id := "u2", email := "u2@example.com", industry := some "", booked := true }

/-- The two toggleable boolean fields. -/
inductive UpdField
  | replied
  | booked
deriving DecidableEq, Repr

/-- The partial row update sent to the repository: `none` means the column
is absent from the update; `booked_at = some none` writes SQL NULL. -/
structure UpdatePayload where
  replied : Option Bool
  booked : Option Bool
  booked_at : Option (Option String)
  last_updated_at : String
deriving DecidableEq, Repr

/-- `updateData` of `updateLeadStatus` (ActiveCampaigns.tsx 147-154,
RepliesEngagement.tsx 113-120): the toggled field, a refreshed
`last_updated_at`, and `booked_at` only when setting `booked` true. -/
def updateLeadStatusData (field : UpdField) (value : Bool) (now : String) : UpdatePayload :=
  { replied := if field = .replied then some value else none,
    booked := if field = .booked then some value else none,
    booked_at := if field = .booked then (if value then some (some now) else none) else none,
    last_updated_at := now }

/-- `updateData` of `BookedMeetings.updateBookedStatus`
(ActiveCampaigns.tsx 1257-1261): clearing `booked` writes `booked_at: null`. -/
def updateBookedStatusData (now : String) : UpdatePayload :=
  { replied := none, booked := some false, booked_at := some none, last_updated_at := now }

/-- The local state a list view holds: its lead snapshot, the surfaced
error, and the set of lead ids with an update in flight. -/
structure ViewState where
  leads : List Lead
  error : Option String
  updating : List String
deriving DecidableEq, Repr

/-- `setUpdatingLeads(prev => new Set(prev).add(leadId))`. -/
def startUpdate (st : ViewState) (leadId : String) : ViewState :=
  { st with updating := leadId :: st.updating }

/-- Completion of `updateLeadStatus`/`updateBookedStatus`: on success the
lead is filtered out of the local snapshot (no re-fetch); on failure the
snapshot is untouched and the error is surfaced; the `finally` block always
removes the id from the in-flight set. -/
def finishUpdate (st : ViewState) (leadId : String) (result : Except String Unit) : ViewState :=
  match result with
  | .ok _ =>
    { leads := st.leads.filter fun l => decide (l.id ≠ leadId),
      error := st.error,
      updating := st.updating.filter fun i => decide (i ≠ leadId) }
  | .error msg =>
    { leads := st.leads,
      error := some msg,
      updating := st.updating.filter fun i => decide (i ≠ leadId) }

/-- A concrete view state for the C9/C10 witnesses. -/
def demoState : ViewState :=
  { leads := [gapLead, unknownIndustryLead, emptyIndustryLead],
    error := none,
    updating := [] }

lemma getCurrentStage_eq_flags (l : Lead) :
    getCurrentStage l = stageOfFlags l.day_1_sent l.day_2_sent l.day_3_sent l.day_4_sent := rfl

lemma getNextStage_eq_flags (l : Lead) :
    getNextStage l = nextOfFlags l.day_1_sent l.day_2_sent l.day_3_sent l.day_4_sent := rfl

lemma daySent_eq_flags (l : Lead) (n : ℕ) :
    daySent l n = sentFlag l.day_1_sent l.day_2_sent l.day_3_sent l.day_4_sent n := by
  match n with
  | 0 => rfl
  | 1 => rfl
  | 2 => rfl
  | 3 => rfl
  | 4 => rfl
  | (m + 5) => rfl

/-- C1: for every lead, `getCurrentStage` returns `"Day N Sent"` for the
highest `N` in `4..1` whose `day_N_sent` flag is true and `"Not Started"`
when none is, while `getNextStage` returns `"Awaiting Day N"` for the lowest
`N` in `1..4` whose flag is false and `"Sequence Complete"` when all four
are true; both are total over every combination of the four flags,
including out-of-order gaps. -/
theorem stage_inference_total (l : Lead) :
    ((getCurrentStage l = "Not Started" ∧ ∀ n ∈ [1, 2, 3, 4], daySent l n = false) ∨
      (∃ n ∈ [1, 2, 3, 4], daySent l n = true ∧
        getCurrentStage l = "Day " ++ toString n ++ " Sent" ∧
        ∀ m ∈ [1, 2, 3, 4], n < m → daySent l m = false)) ∧
    ((getNextStage l = "Sequence Complete" ∧ ∀ n ∈ [1, 2, 3, 4], daySent l n = true) ∨
      (∃ n ∈ [1, 2, 3, 4], daySent l n = false ∧
        getNextStage l = "Awaiting Day " ++ toString n ∧
        ∀ m ∈ [1, 2, 3, 4], m < n → daySent l m = true)) := by
  simp only [getCurrentStage_eq_flags, getNextStage_eq_flags, daySent_eq_flags]
  generalize l.day_1_sent = d1
  generalize l.day_2_sent = d2
  generalize l.day_3_sent = d3
  generalize l.day_4_sent = d4
  cases d1 <;> cases d2 <;> cases d3 <;> cases d4 <;> decide

/-- Witness for C1 at the out-of-order lead `gapLead`. -/
theorem stage_inference_total_witness :
    ((getCurrentStage gapLead = "Not Started" ∧ ∀ n ∈ [1, 2, 3, 4], daySent gapLead n = false) ∨
      (∃ n ∈ [1, 2, 3, 4], daySent gapLead n = true ∧
        getCurrentStage gapLead = "Day " ++ toString n ++ " Sent" ∧
        ∀ m ∈ [1, 2, 3, 4], n < m → daySent gapLead m = false)) ∧
    ((getNextStage gapLead = "Sequence Complete" ∧ ∀ n ∈ [1, 2, 3, 4], daySent gapLead n = true) ∨
      (∃ n ∈ [1, 2, 3, 4], daySent gapLead n = false ∧
        getNextStage gapLead = "Awaiting Day " ++ toString n ∧
        ∀ m ∈ [1, 2, 3, 4], m < n → daySent gapLead m = true)) :=
  stage_inference_total gapLead

/-- C2: the funnel aggregation yields the six checkpoints in order, each
with the count of leads whose flag is true and a percentage of
`count / max(all six counts, 1) * 100`; the denominator is at least 1 and on
the empty collection every count and percentage is 0. -/
theorem funnel_aggregation_spec (leads : List Lead) :
    funnelStages leads =
      [⟨"Day 1 Sent", leads.countP fun l => l.day_1_sent,
          ((leads.countP fun l => l.day_1_sent : ℕ) : ℚ) / (specFunnelDenom leads : ℚ) * 100⟩,
        ⟨"Day 2 Sent", leads.countP fun l => l.day_2_sent,
          ((leads.countP fun l => l.day_2_sent : ℕ) : ℚ) / (specFunnelDenom leads : ℚ) * 100⟩,
        ⟨"Day 3 Sent", leads.countP fun l => l.day_3_sent,
          ((leads.countP fun l => l.day_3_sent : ℕ) : ℚ) / (specFunnelDenom leads : ℚ) * 100⟩,
        ⟨"Day 4 Sent", leads.countP fun l => l.day_4_sent,
          ((leads.countP fun l => l.day_4_sent : ℕ) : ℚ) / (specFunnelDenom leads : ℚ) * 100⟩,
        ⟨"Replied", leads.countP fun l => l.replied,
          ((leads.countP fun l => l.replied : ℕ) : ℚ) / (specFunnelDenom leads : ℚ) * 100⟩,
        ⟨"Booked", leads.countP fun l => l.booked,
          ((leads.countP fun l => l.booked : ℕ) : ℚ) / (specFunnelDenom leads : ℚ) * 100⟩] ∧
    1 ≤ funnelMaxCount leads ∧
    funnelStages [] =
      [⟨"Day 1 Sent", 0, 0⟩, ⟨"Day 2 Sent", 0, 0⟩, ⟨"Day 3 Sent", 0, 0⟩,
        ⟨"Day 4 Sent", 0, 0⟩, ⟨"Replied", 0, 0⟩, ⟨"Booked", 0, 0⟩] := by
  have hc1 : leads.countP (fun l => l.day_1_sent) = day1SentCount leads := by
    simp [day1SentCount, List.countP_eq_length_filter]
  have hc2 : leads.countP (fun l => l.day_2_sent) = day2SentCount leads := by
    simp [day2SentCount, List.countP_eq_length_filter]
  have hc3 : leads.countP (fun l => l.day_3_sent) = day3SentCount leads := by
    simp [day3SentCount, List.countP_eq_length_filter]
  have hc4 : leads.countP (fun l => l.day_4_sent) = day4SentCount leads := by
    simp [day4SentCount, List.countP_eq_length_filter]
  have hc5 : leads.countP (fun l => l.replied) = repliedCount leads := by
    simp [repliedCount, List.countP_eq_length_filter]
  have hc6 : leads.countP (fun l => l.booked) = bookedCount leads := by
    simp [bookedCount, List.countP_eq_length_filter]
  have hmax : specFunnelDenom leads = funnelMaxCount leads := by
    rw [specFunnelDenom, funnelMaxCount, hc1, hc2, hc3, hc4, hc5, hc6]
    omega
  refine ⟨?_, ?_, ?_⟩
  · rw [funnelStages, hc1, hc2, hc3, hc4, hc5, hc6, hmax]
  · rw [funnelMaxCount]; omega
  · norm_num [funnelStages, day1SentCount, day2SentCount, day3SentCount,
      day4SentCount, repliedCount, bookedCount, funnelMaxCount]

lemma maxCountOf_funnelCounts (leads : List Lead) :
    maxCountOf (funnelCounts leads) = funnelMaxCount leads := rfl

/-- The percentage stored in the Dashboard funnel for each checkpoint is
`stagePercentage` of the aggregated counts. -/
lemma funnelStages_percentages (leads : List Lead) (i : Checkpoint) :
    stagePercentage (funnelCounts leads) i =
      (countAt (funnelCounts leads) i : ℚ) / (funnelMaxCount leads : ℚ) * 100 := by
  rw [stagePercentage, maxCountOf_funnelCounts]

set_option maxHeartbeats 1600000 in
lemma maxCountOf_setAt (c : FunnelCounts) (i : Checkpoint) (x : ℕ)
    (hinc : countAt c i ≤ x) (hmax : x ≤ maxCountOf c) :
    maxCountOf (setAt c i x) = maxCountOf c := by
  rw [maxCountOf] at hmax
  cases i <;> simp only [setAt, countAt, maxCountOf] at hinc ⊢ <;> omega

/-- C3: within one funnel aggregation, raising checkpoint `i`'s count to a
value that does not exceed the current shared maximum leaves every other
checkpoint's percentage (and the shared denominator) unchanged. -/
theorem funnel_percentage_independence (c : FunnelCounts) (i j : Checkpoint) (x : ℕ)
    (hij : i ≠ j) (hinc : countAt c i ≤ x) (hmax : x ≤ maxCountOf c) :
    stagePercentage (setAt c i x) j = stagePercentage c j ∧
    maxCountOf (setAt c i x) = maxCountOf c := by
  have hcnt : countAt (setAt c i x) j = countAt c j := by
    cases i <;> cases j <;> first | exact absurd rfl hij | rfl
  have hden : maxCountOf (setAt c i x) = maxCountOf c := maxCountOf_setAt c i x hinc hmax
  exact ⟨by rw [stagePercentage, stagePercentage, hden, hcnt], hden⟩

/-- Witness for C3: raising the booked count from 0 to 4 (below the maximum
5) leaves the day-1 percentage and the denominator unchanged. -/
theorem funnel_percentage_independence_witness :
    stagePercentage (setAt demoCounts .bookedCk 4) .d1Sent =
      stagePercentage demoCounts .d1Sent ∧
    maxCountOf (setAt demoCounts .bookedCk 4) = maxCountOf demoCounts :=
  funnel_percentage_independence demoCounts .bookedCk .d1Sent 4
    (by decide) (by decide) (by decide)

lemma insertSorted_perm (le : α → α → Bool) (x : α) (l : List α) :
    (insertSorted le x l).Perm (x :: l) := by
  induction l with
  | nil => rfl
  | cons y ys ih =>
    rw [insertSorted]
    by_cases h : le x y = true
    · simp [h]
    · simp only [h, if_neg]
      exact ((ih.cons y).trans (List.Perm.swap x y ys)).symm.symm

lemma sortByCmp_perm (cmp : α → α → ℤ) (l : List α) : (sortByCmp cmp l).Perm l := by
  induction l with
  | nil => rfl
  | cons x xs ih =>
    exact (insertSorted_perm _ x (sortByCmp cmp xs)).trans (ih.cons x)

lemma mem_sortByCmp (cmp : α → α → ℤ) (l : List α) (a : α) :
    a ∈ sortByCmp cmp l ↔ a ∈ l := (sortByCmp_perm cmp l).mem_iff

lemma sortedLeads_perm (col : Column) (dir : SortDir) (l : List Lead) :
    (sortedLeads col dir l).Perm l := sortByCmp_perm _ l

/- Comparator shape lemmas. -/

lemma leadCmp_null_left (col : Column) (dir : SortDir) (a b : Lead)
    (h : colVal col a = .vNull) : leadCmp col dir a b = 1 := by
  rw [leadCmp]
  simp [h]

lemma leadCmp_null_right (col : Column) (dir : SortDir) (a b : Lead)
    (ha : colVal col a ≠ .vNull) (hb : colVal col b = .vNull) :
    leadCmp col dir a b = -1 := by
  rw [leadCmp]
  simp [ha, hb]

lemma ltVal_asymm (u v : ColVal) (h : ltVal u v = true) : ltVal v u = false := by
  cases u <;> cases v <;> simp_all [ltVal]
  exact le_of_lt h

lemma leadCmp_antisymm (col : Column) (dir : SortDir) (a b : Lead)
    (ha : colVal col a ≠ .vNull) (hb : colVal col b ≠ .vNull) :
    leadCmp col dir b a = -leadCmp col dir a b := by
  rw [leadCmp, leadCmp]
  rcases hab : ltVal (colVal col a) (colVal col b) <;>
    rcases hba : ltVal (colVal col b) (colVal col a) <;>
      cases dir <;> simp [ha, hb, hab, hba]
  · exact absurd (ltVal_asymm _ _ hba) (by simp [hab])
  · exact absurd (ltVal_asymm _ _ hba) (by simp [hab])

lemma leadCmp_total (col : Column) (dir : SortDir) (a b : Lead)
    (h : ¬(colVal col a = .vNull ∧ colVal col b = .vNull)) :
    leadCmp col dir a b ≤ 0 ∨ leadCmp col dir b a ≤ 0 := by
  by_cases ha : colVal col a = .vNull
  · right
    have hb : colVal col b ≠ .vNull := fun hb => h ⟨ha, hb⟩
    rw [leadCmp_null_right col dir b a hb ha]
    omega
  · by_cases hb : colVal col b = .vNull
    · left
      rw [leadCmp_null_right col dir a b ha hb]
      omega
    · have := leadCmp_antisymm col dir a b ha hb
      omega

lemma leadCmp_defined (col : Column) (dir : SortDir) (a b : Lead)
    (ha : colVal col a ≠ .vNull) (hb : colVal col b ≠ .vNull) :
    leadCmp col dir a b =
      if dir = .desc then -valComparison (colVal col a) (colVal col b)
      else valComparison (colVal col a) (colVal col b) := by
  rw [leadCmp, valComparison]
  simp only [ha, hb, if_neg, if_false]

lemma valComparison_nonpos_iff (u v : ColVal) :
    valComparison u v ≤ 0 ↔ ltVal v u = false := by
  rcases h1 : ltVal v u <;> rcases h2 : ltVal u v <;> simp [valComparison, h1, h2]

lemma valComparison_nonneg_iff (u v : ColVal) :
    0 ≤ valComparison u v ↔ ltVal u v = false := by
  rcases h1 : ltVal v u <;> rcases h2 : ltVal u v <;> simp [valComparison, h1, h2]
  exact absurd (ltVal_asymm _ _ h2) (by simp [h1])

lemma optVal_shape (o : Option String) : optVal o = .vNull ∨ ∃ s, optVal o = .vStr s := by
  cases o <;> simp [optVal]

lemma colVal_kind_eq (col : Column) (a b : Lead) :
    (∃ x y, colVal col a = .vBool x ∧ colVal col b = .vBool y) ∨
    ((colVal col a = .vNull ∨ ∃ s, colVal col a = .vStr s) ∧
      (colVal col b = .vNull ∨ ∃ s, colVal col b = .vStr s)) := by
  cases col <;>
    first
      | exact .inl ⟨_, _, rfl, rfl⟩
      | exact .inr ⟨optVal_shape _, optVal_shape _⟩
      | exact .inr ⟨.inr ⟨_, rfl⟩, .inr ⟨_, rfl⟩⟩

lemma ltVal_neg_trans (a b c : ColVal)
    (hk : ((∃ x, a = ColVal.vBool x) ∧ (∃ x, b = ColVal.vBool x) ∧ (∃ x, c = ColVal.vBool x)) ∨
      ((∃ s, a = ColVal.vStr s) ∧ (∃ s, b = ColVal.vStr s) ∧ (∃ s, c = ColVal.vStr s)))
    (h1 : ltVal b a = false) (h2 : ltVal c b = false) : ltVal c a = false := by
  rcases hk with ⟨⟨x, rfl⟩, ⟨y, rfl⟩, ⟨z, rfl⟩⟩ | ⟨⟨s, rfl⟩, ⟨t, rfl⟩, ⟨r, rfl⟩⟩
  · cases x <;> cases y <;> cases z <;> simp_all [ltVal]
  · simp only [ltVal, decide_eq_false_iff_not, not_lt] at h1 h2 ⊢
    exact h1.trans h2

lemma leadCmp_nonpos_not_null_left (col : Column) (dir : SortDir) (a b : Lead)
    (h : leadCmp col dir a b ≤ 0) : colVal col a ≠ .vNull := by
  intro ha
  rw [leadCmp_null_left col dir a b ha] at h
  omega

lemma leadCmp_trans (col : Column) (dir : SortDir) (a b c : Lead)
    (hab : leadCmp col dir a b ≤ 0) (hbc : leadCmp col dir b c ≤ 0) :
    leadCmp col dir a c ≤ 0 := by
  have ha := leadCmp_nonpos_not_null_left col dir a b hab
  have hb := leadCmp_nonpos_not_null_left col dir b c hbc
  by_cases hc : colVal col c = .vNull
  · rw [leadCmp_null_right col dir a c ha hc]
    omega
  · rw [leadCmp_defined col dir a b ha hb] at hab
    rw [leadCmp_defined col dir b c hb hc] at hbc
    rw [leadCmp_defined col dir a c ha hc]
    have kab := colVal_kind_eq col a b
    have kbc := colVal_kind_eq col b c
    have hk : ((∃ x, colVal col a = ColVal.vBool x) ∧ (∃ x, colVal col b = ColVal.vBool x) ∧
          (∃ x, colVal col c = ColVal.vBool x)) ∨
        ((∃ s, colVal col a = ColVal.vStr s) ∧ (∃ s, colVal col b = ColVal.vStr s) ∧
          (∃ s, colVal col c = ColVal.vStr s)) := by
      rcases kab with ⟨x1, y1, hx1, hy1⟩ | ⟨hsa, hsb⟩ <;>
        rcases kbc with ⟨x2, y2, hx2, hy2⟩ | ⟨hsb2, hsc2⟩
      · exact .inl ⟨⟨x1, hx1⟩, ⟨y1, hy1⟩, ⟨y2, hy2⟩⟩
      · rcases hsb2 with hnull | ⟨s, hs⟩
        · rw [hy1] at hnull
          exact absurd hnull (by simp)
        · rw [hy1] at hs
          exact absurd hs (by simp)
      · rcases hsb with hnull | ⟨s, hs⟩
        · rw [hx2] at hnull
          exact absurd hnull (by simp)
        · rw [hx2] at hs
          exact absurd hs (by simp)
      · refine .inr ⟨?_, ?_, ?_⟩
        · rcases hsa with hnull | hs
          · exact absurd hnull ha
          · exact hs
        · rcases hsb2 with hnull | hs
          · exact absurd hnull hb
          · exact hs
        · rcases hsc2 with hnull | hs
          · exact absurd hnull hc
          · exact hs
    cases dir with
    | asc =>
      rw [if_neg (by simp)] at hab hbc ⊢
      rw [valComparison_nonpos_iff] at hab hbc ⊢
      refine ltVal_neg_trans _ _ _ ?_ hab hbc
      tauto
    | desc =>
      rw [if_pos rfl] at hab hbc ⊢
      have hab2 : ltVal (colVal col a) (colVal col b) = false := by
        rw [← valComparison_nonneg_iff]
        omega
      have hbc2 : ltVal (colVal col b) (colVal col c) = false := by
        rw [← valComparison_nonneg_iff]
        omega
      have hac : ltVal (colVal col a) (colVal col c) = false := by
        refine ltVal_neg_trans _ _ _ ?_ hbc2 hab2
        tauto
      rw [← valComparison_nonneg_iff] at hac
      omega

lemma insertSorted_nullsLast (col : Column) (dir : SortDir) (x : Lead) (l : List Lead)
    (h : NullsLast col l) :
    NullsLast col (insertSorted (fun a b => leadCmp col dir a b ≤ 0) x l) := by
  induction l with
  | nil => simp [NullsLast, insertSorted]
  | cons y ys ih =>
    rw [NullsLast, insertSorted]
    rcases List.pairwise_cons.mp h with ⟨hhead, htail⟩
    by_cases hxy : leadCmp col dir x y ≤ 0
    · rw [if_pos (decide_eq_true hxy)]
      refine List.pairwise_cons.mpr ⟨?_, h⟩
      intro z hz hxnull
      rw [leadCmp_null_left col dir x y hxnull] at hxy
      omega
    · rw [if_neg (by simpa using hxy)]
      refine List.pairwise_cons.mpr ⟨?_, ih htail⟩
      intro z hz hynull
      have hz2 : z = x ∨ z ∈ ys := by
        have := (insertSorted_perm (fun a b => decide (leadCmp col dir a b ≤ 0)) x ys).mem_iff.mp hz
        simpa using this
      rcases hz2 with rfl | hz3
      · by_contra hxn
        apply hxy
        rw [leadCmp_null_right col dir _ _ hxn hynull]
        omega
      · exact hhead z hz3 hynull

lemma sortByCmp_nullsLast (col : Column) (dir : SortDir) (l : List Lead) :
    NullsLast col (sortedLeads col dir l) := by
  induction l with
  | nil => simp [NullsLast, sortedLeads, sortByCmp]
  | cons x xs ih =>
    exact insertSorted_nullsLast col dir x (sortedLeads col dir xs) ih

lemma insertSorted_pairwise_cmp (cmp : α → α → ℤ) (x : α) (m : List α)
    (hm : m.Pairwise (fun a b => cmp a b ≤ 0))
    (htot : ∀ y ∈ m, cmp x y ≤ 0 ∨ cmp y x ≤ 0)
    (htrans : ∀ a b c : α, cmp a b ≤ 0 → cmp b c ≤ 0 → cmp a c ≤ 0) :
    (insertSorted (fun a b => cmp a b ≤ 0) x m).Pairwise (fun a b => cmp a b ≤ 0) := by
  induction m with
  | nil => simp [insertSorted]
  | cons y ys ih =>
    rw [insertSorted]
    rcases List.pairwise_cons.mp hm with ⟨hhead, htail⟩
    by_cases hxy : cmp x y ≤ 0
    · rw [if_pos (decide_eq_true hxy)]
      refine List.pairwise_cons.mpr ⟨?_, hm⟩
      intro z hz
      rcases List.mem_cons.mp hz with rfl | hz3
      · exact hxy
      · exact htrans x y z hxy (hhead z hz3)
    · rw [if_neg (by simpa using hxy)]
      have htot2 : ∀ y2 ∈ ys, cmp x y2 ≤ 0 ∨ cmp y2 x ≤ 0 := by
        intro y2 hy2
        exact htot y2 (List.mem_cons_of_mem y hy2)
      refine List.pairwise_cons.mpr ⟨?_, ih htail htot2⟩
      intro z hz
      have hz2 : z = x ∨ z ∈ ys := by
        have := (insertSorted_perm (fun a b => decide (cmp a b ≤ 0)) x ys).mem_iff.mp hz
        simpa using this
      rcases hz2 with rfl | hz3
      · rcases htot y (List.mem_cons_self y ys) with h1 | h2
        · exact absurd h1 hxy
        · exact h2
      · exact hhead z hz3

lemma sortByCmp_pairwise (cmp : α → α → ℤ) (l : List α)
    (htot : l.Pairwise (fun a b => cmp a b ≤ 0 ∨ cmp b a ≤ 0))
    (htrans : ∀ a b c : α, cmp a b ≤ 0 → cmp b c ≤ 0 → cmp a c ≤ 0) :
    (sortByCmp cmp l).Pairwise (fun a b => cmp a b ≤ 0) := by
  induction l with
  | nil => simp [sortByCmp]
  | cons x xs ih =>
    rcases List.pairwise_cons.mp htot with ⟨hhead, htail⟩
    refine insertSorted_pairwise_cmp cmp x (sortByCmp cmp xs) (ih htail) ?_ htrans
    intro y hy
    exact hhead y ((sortByCmp_perm cmp xs).mem_iff.mp hy)

lemma sortByCmp_of_pairwise (cmp : α → α → ℤ) (l : List α)
    (h : l.Pairwise (fun a b => cmp a b ≤ 0)) : sortByCmp cmp l = l := by
  induction l with
  | nil => rfl
  | cons x xs ih =>
    rcases List.pairwise_cons.mp h with ⟨hhead, htail⟩
    rw [sortByCmp, ih htail]
    cases xs with
    | nil => rfl
    | cons y ys =>
      rw [insertSorted, if_pos (decide_eq_true (hhead y (List.mem_cons_self y ys)))]

lemma pairwise_not_both_null (col : Column) (l : List Lead)
    (h : l.countP (isNullCol col) ≤ 1) :
    l.Pairwise (fun a b => ¬(colVal col a = .vNull ∧ colVal col b = .vNull)) := by
  induction l with
  | nil => simp
  | cons x xs ih =>
    rw [List.countP_cons] at h
    refine List.pairwise_cons.mpr ⟨?_, ?_⟩
    · intro z hz ⟨hx, hz2⟩
      have : isNullCol col x = true := decide_eq_true hx
      rw [this, if_pos rfl] at h
      have hzero : xs.countP (isNullCol col) = 0 := by omega
      have := List.countP_eq_zero.mp hzero z hz
      exact this (decide_eq_true hz2)
    · exact ih (by omega)

lemma sortedLeads_pairwise_le (col : Column) (dir : SortDir) (l : List Lead)
    (h : l.countP (isNullCol col) ≤ 1) :
    (sortedLeads col dir l).Pairwise (fun a b => leadCmp col dir a b ≤ 0) := by
  refine sortByCmp_pairwise (leadCmp col dir) l ?_ (leadCmp_trans col dir)
  exact (pairwise_not_both_null col l h).imp fun h2 => leadCmp_total col dir _ _ h2

lemma sortedLeads_fixed (col : Column) (dir : SortDir) (l : List Lead)
    (h : l.countP (isNullCol col) ≤ 1) :
    sortedLeads col dir (sortedLeads col dir l) = sortedLeads col dir l := by
  refine sortByCmp_of_pairwise (leadCmp col dir) _ ?_
  exact sortedLeads_pairwise_le col dir l h

/-- C5: for every list, sort column, and direction, the sort stage places
every lead whose column value is null/undefined after all leads with a
defined value; with exactly one null-valued lead, that lead comes last. -/
theorem sort_nulls_last (col : Column) (dir : SortDir) (l : List Lead) :
    NullsLast col (sortedLeads col dir l) ∧
    (∀ x ∈ l, colVal col x = .vNull → l.countP (isNullCol col) = 1 →
      ∃ l2, sortedLeads col dir l = l2 ++ [x] ∧ ∀ y ∈ l2, colVal col y ≠ .vNull) := by
  have part1 := sortByCmp_nullsLast col dir l
  refine ⟨part1, ?_⟩
  intro x hx hxnull hcount
  have hperm := sortedLeads_perm col dir l
  have hmem : x ∈ sortedLeads col dir l := hperm.mem_iff.mpr hx
  obtain ⟨s1, s2, hsplit⟩ := List.append_of_mem hmem
  have hcount2 : (sortedLeads col dir l).countP (isNullCol col) = 1 := by
    rw [hperm.countP_eq]
    exact hcount
  have hxn : isNullCol col x = true := decide_eq_true hxnull
  rw [hsplit, List.countP_append, List.countP_cons, hxn, if_pos rfl] at hcount2
  have h1 : s1.countP (isNullCol col) = 0 := by omega
  have h2 : s2.countP (isNullCol col) = 0 := by omega
  have hp : NullsLast col (s1 ++ x :: s2) := by
    rw [← hsplit]
    exact part1
  have hs2nil : s2 = [] := by
    cases s2 with
    | nil => rfl
    | cons z zs =>
      have hz := (List.pairwise_cons.mp (List.pairwise_append.mp hp).2.1).1
      have hznull := hz z (List.mem_cons_self z zs) hxnull
      have := List.countP_eq_zero.mp h2 z (List.mem_cons_self z zs)
      exact absurd (decide_eq_true hznull) this
  refine ⟨s1, by rw [hsplit, hs2nil], ?_⟩
  intro y hy hynull
  exact absurd (decide_eq_true hynull) (List.countP_eq_zero.mp h1 y hy)

/-- Witness for C5: in a two-lead list where only `nullLeadA` has a null
`last_updated_at`, descending sort places it last. -/
theorem sort_nulls_last_witness :
    ∃ l2, sortedLeads .last_updated_at .desc [nullLeadA, gapLead] = l2 ++ [nullLeadA] ∧
      ∀ y ∈ l2, colVal .last_updated_at y ≠ .vNull :=
  (sort_nulls_last .last_updated_at .desc [nullLeadA, gapLead]).2 nullLeadA
    (by decide) (by decide) (by decide)

/-- C6: with an empty search term and all-empty field filters the search
and filter stages are identities, so the whole pipeline agrees with
paginate-after-sort of the raw list, for every sort column, direction,
page size, and page. -/
theorem pipeline_empty_query_identity (l : List Lead) (col : Column) (dir : SortDir)
    (pageSize page : ℕ) :
    filteredLeads "" emptyFilters l = l ∧
    currentLeads pageSize page (sortedLeads col dir (filteredLeads "" emptyFilters l)) =
      currentLeads pageSize page (sortedLeads col dir l) := by
  have hid : filteredLeads "" emptyFilters l = l := by
    rw [filteredLeads]
    refine List.filter_eq_self.mpr ?_
    intro a _
    simp [leadMatches, searchMatch, emptyFilters, eqFilter]
  exact ⟨hid, by rw [hid]⟩

/-- C7 counterexample: with two leads whose sort-column value is null, the
comparator orders each null after the other (it returns 1 whenever its
first argument is null), so each sort pass swaps the pair and the
search → filter → sort pipeline is not idempotent. -/
theorem pipeline_not_idempotent :
    pipelineSFS "" emptyFilters .last_updated_at .desc
        (pipelineSFS "" emptyFilters .last_updated_at .desc [nullLeadA, nullLeadB]) ≠
      pipelineSFS "" emptyFilters .last_updated_at .desc [nullLeadA, nullLeadB] := by
  decide

lemma countP_filter_le (p q : α → Bool) (l : List α) :
    (l.filter q).countP p ≤ l.countP p := by
  induction l with
  | nil => simp
  | cons x xs ih =>
    rw [List.filter_cons, List.countP_cons]
    by_cases hq : q x = true
    · rw [if_pos hq, List.countP_cons]
      by_cases hp : p x = true
      · rw [if_pos hp]
        omega
      · rw [if_neg hp]
        omega
    · rw [if_neg hq]
      by_cases hp : p x = true
      · rw [if_pos hp]
        omega
      · rw [if_neg hp]
        omega

/-- C7 amended: the search → filter → sort pipeline is idempotent on every
list in which at most one lead has a null/undefined sort-column value (with
two or more, the comparator is inconsistent on the null pairs and a second
sort may reorder them). -/
theorem pipeline_idempotent_le_one_null (term : String) (f : Filters) (col : Column)
    (dir : SortDir) (l : List Lead) (h : l.countP (isNullCol col) ≤ 1) :
    pipelineSFS term f col dir (pipelineSFS term f col dir l) =
      pipelineSFS term f col dir l := by
  have hm : (filteredLeads term f l).countP (isNullCol col) ≤ 1 :=
    le_trans (countP_filter_le _ _ l) h
  have hfix : filteredLeads term f (pipelineSFS term f col dir l) =
      pipelineSFS term f col dir l := by
    rw [filteredLeads]
    refine List.filter_eq_self.mpr ?_
    intro a ha
    have ha2 : a ∈ filteredLeads term f l :=
      (sortedLeads_perm col dir (filteredLeads term f l)).mem_iff.mp ha
    exact List.of_mem_filter ha2
  rw [pipelineSFS, hfix, pipelineSFS]
  exact sortedLeads_fixed col dir (filteredLeads term f l) hm

/-- Witness for C7 (amended): a concrete two-lead list with one null
`last_updated_at`. -/
theorem pipeline_idempotent_le_one_null_witness :
    pipelineSFS "" emptyFilters .last_updated_at .desc
        (pipelineSFS "" emptyFilters .last_updated_at .desc [nullLeadA, gapLead]) =
      pipelineSFS "" emptyFilters .last_updated_at .desc [nullLeadA, gapLead] :=
  pipeline_idempotent_le_one_null "" emptyFilters .last_updated_at .desc
    [nullLeadA, gapLead] (by decide)

lemma ceil_div_nat_eq (n size : ℕ) (hsize : 0 < size) :
    (⌈(n : ℚ) / (size : ℚ)⌉ : ℤ) = ((n + size - 1) / size : ℕ) := by
  have hd := Nat.div_add_mod (n + size - 1) size
  have hm := Nat.mod_lt (n + size - 1) hsize
  have hA : n ≤ size * ((n + size - 1) / size) := by omega
  have hB : ((n + size - 1) / size) * size + 1 ≤ n + size := by
    have h2 := Nat.div_mul_le_self (n + size - 1) size
    omega
  rw [Int.ceil_eq_iff]
  constructor
  · rw [lt_div_iff₀ (by exact_mod_cast hsize)]
    rw [Int.cast_natCast, sub_mul, one_mul, sub_lt_iff_lt_add]
    exact_mod_cast (show (n + size - 1) / size * size < n + size by omega)
  · rw [div_le_iff₀ (by exact_mod_cast hsize)]
    rw [Int.cast_natCast]
    have hA2 : n ≤ (n + size - 1) / size * size := by
      rw [Nat.mul_comm]
      exact hA
    exact_mod_cast hA2

/-- C8: page count is `ceil(n / pageSize)` (as the usual integer formula),
page `p` is the slice from `(p-1)*pageSize` to `p*pageSize`, its length is
`min pageSize (n - (p-1)*pageSize)`, and a page whose start index is at or
beyond the list length yields the empty slice; the fixed page sizes are 20
(Replies) and 25 (the other list views). -/
theorem pagination_spec (size page : ℕ) (l : List Lead)
    (hsize : 0 < size) (hpage : 1 ≤ page) :
    totalPages l.length size = ((l.length + size - 1) / size : ℕ) ∧
    currentLeads size page l = (l.drop ((page - 1) * size)).take size ∧
    (currentLeads size page l).length = min size (l.length - (page - 1) * size) ∧
    (l.length ≤ (page - 1) * size → currentLeads size page l = []) ∧
    leadsPerPageReplies = 20 ∧ leadsPerPageCampaigns = 25 := by
  have hstep : page * size - (page - 1) * size = size := by
    obtain ⟨p, rfl⟩ : ∃ p, page = p + 1 := ⟨page - 1, by omega⟩
    simp only [Nat.add_sub_cancel]
    rw [Nat.succ_mul]
    omega
  have hslice : currentLeads size page l = (l.drop ((page - 1) * size)).take size := by
    rw [currentLeads, jsSlice, hstep]
  refine ⟨ceil_div_nat_eq l.length size hsize, hslice, ?_, ?_, rfl, rfl⟩
  · rw [hslice]
    simp
  · intro hbeyond
    rw [hslice, List.drop_eq_nil_of_le hbeyond]
    simp

/-- Witness for C8 at a concrete three-lead list, page size 2, page 2. -/
theorem pagination_spec_witness :
    totalPages ([gapLead, nullLeadA, nullLeadB] : List Lead).length 2 =
      ((([gapLead, nullLeadA, nullLeadB] : List Lead).length + 2 - 1) / 2 : ℕ) ∧
    currentLeads 2 2 [gapLead, nullLeadA, nullLeadB] =
      (([gapLead, nullLeadA, nullLeadB] : List Lead).drop ((2 - 1) * 2)).take 2 ∧
    (currentLeads 2 2 ([gapLead, nullLeadA, nullLeadB] : List Lead)).length =
      min 2 (([gapLead, nullLeadA, nullLeadB] : List Lead).length - (2 - 1) * 2) ∧
    (([gapLead, nullLeadA, nullLeadB] : List Lead).length ≤ (2 - 1) * 2 →
      currentLeads 2 2 ([gapLead, nullLeadA, nullLeadB] : List Lead) = []) ∧
    leadsPerPageReplies = 20 ∧ leadsPerPageCampaigns = 25 :=
  pagination_spec 2 2 [gapLead, nullLeadA, nullLeadB] (by decide) (by decide)

lemma bump_keyCount (k k2 : String) (t : List (String × ℕ)) :
    keyCount k (bump k2 t) = keyCount k t + (if k2 = k then 1 else 0) := by
  induction t with
  | nil =>
    by_cases h : k2 = k <;> simp [bump, keyCount, h]
  | cons p rest ih =>
    obtain ⟨a, c⟩ := p
    by_cases ha2 : a = k2
    · subst ha2
      by_cases hak : a = k
      · subst hak
        simp [bump, keyCount]
      · simp [bump, keyCount, hak]
    · by_cases hak : a = k
      · subst hak
        have hk2 : ¬(k2 = a) := fun h => ha2 h.symm
        simp [bump, keyCount, ha2, hk2]
      · simp [bump, keyCount, ha2, hak, ih]

lemma bump_keys_mem (k : String) (t : List (String × ℕ)) (h : k ∈ t.map Prod.fst) :
    (bump k t).map Prod.fst = t.map Prod.fst := by
  induction t with
  | nil => simp at h
  | cons p rest ih =>
    obtain ⟨a, c⟩ := p
    rw [bump]
    by_cases ha : a = k
    · rw [if_pos ha]
      simp
    · rw [if_neg ha]
      have h2 : k ∈ rest.map Prod.fst := by
        simp at h
        rcases h with h | h
        · exact absurd h.symm ha
        · simpa using h
      simp [ih h2]

lemma bump_keys_not_mem (k : String) (t : List (String × ℕ)) (h : k ∉ t.map Prod.fst) :
    (bump k t).map Prod.fst = t.map Prod.fst ++ [k] := by
  induction t with
  | nil => rfl
  | cons p rest ih =>
    obtain ⟨a, c⟩ := p
    have ha : ¬(a = k) := by
      intro h2
      exact h (by simp [h2])
    rw [bump, if_neg ha]
    have h2 : k ∉ rest.map Prod.fst := fun hk => h (by simp [hk])
    simp [ih h2]

lemma bump_nodup (k : String) (t : List (String × ℕ))
    (h : (t.map Prod.fst).Nodup) : ((bump k t).map Prod.fst).Nodup := by
  by_cases hmem : k ∈ t.map Prod.fst
  · rw [bump_keys_mem k t hmem]
    exact h
  · rw [bump_keys_not_mem k t hmem]
    simp [List.nodup_append, h, hmem]

lemma bump_pos (k : String) (t : List (String × ℕ))
    (h : ∀ p ∈ t, 0 < p.2) : ∀ p ∈ bump k t, 0 < p.2 := by
  induction t with
  | nil =>
    intro p hp
    rw [bump] at hp
    simp at hp
    rw [hp]
    omega
  | cons q rest ih =>
    obtain ⟨a, c⟩ := q
    intro p hp
    rw [bump] at hp
    by_cases ha : a = k
    · rw [if_pos ha] at hp
      rcases List.mem_cons.mp hp with rfl | hp2
      · have := h (a, c) (List.mem_cons_self _ _)
        simp only []
        exact Nat.lt_succ_of_lt this
      · exact h p (List.mem_cons_of_mem _ hp2)
    · rw [if_neg ha] at hp
      rcases List.mem_cons.mp hp with rfl | hp2
      · exact h (a, c) (List.mem_cons_self _ _)
      · exact ih (fun q hq => h q (List.mem_cons_of_mem _ hq)) p hp2

lemma foldl_bump_nodup (g : GroupField) (leads : List Lead) (acc : List (String × ℕ))
    (h : (acc.map Prod.fst).Nodup) :
    (((leads.foldl (fun acc2 l => bump (groupKey g l) acc2) acc)).map Prod.fst).Nodup := by
  induction leads generalizing acc with
  | nil => exact h
  | cons l ls ih =>
    exact ih (bump (groupKey g l) acc) (bump_nodup _ _ h)

lemma foldl_bump_pos (g : GroupField) (leads : List Lead) (acc : List (String × ℕ))
    (h : ∀ p ∈ acc, 0 < p.2) :
    ∀ p ∈ leads.foldl (fun acc2 l => bump (groupKey g l) acc2) acc, 0 < p.2 := by
  induction leads generalizing acc with
  | nil => exact h
  | cons l ls ih =>
    exact ih (bump (groupKey g l) acc) (bump_pos _ _ h)

lemma foldl_bump_keyCount (g : GroupField) (leads : List Lead) (acc : List (String × ℕ))
    (k : String) :
    keyCount k (leads.foldl (fun acc2 l => bump (groupKey g l) acc2) acc) =
      keyCount k acc + leads.countP (fun l => decide (groupKey g l = k)) := by
  induction leads generalizing acc with
  | nil => simp
  | cons l ls ih =>
    rw [List.foldl_cons, ih (bump (groupKey g l) acc), bump_keyCount, List.countP_cons]
    by_cases h : groupKey g l = k
    · rw [if_pos h, if_pos (decide_eq_true h)]
      omega
    · rw [if_neg h, if_neg (by simpa using h)]
      omega

lemma groupCounts_nodup (g : GroupField) (leads : List Lead) :
    ((groupCounts g leads).map Prod.fst).Nodup :=
  foldl_bump_nodup g leads [] (by simp)

lemma groupCounts_pos (g : GroupField) (leads : List Lead) :
    ∀ p ∈ groupCounts g leads, 0 < p.2 :=
  foldl_bump_pos g leads [] (by simp)

lemma groupCounts_keyCount (g : GroupField) (leads : List Lead) (k : String) :
    keyCount k (groupCounts g leads) =
      leads.countP (fun l => decide (groupKey g l = k)) := by
  rw [groupCounts, foldl_bump_keyCount, keyCount]
  omega

lemma keyCount_of_mem (t : List (String × ℕ)) (h : (t.map Prod.fst).Nodup)
    (p : String × ℕ) (hp : p ∈ t) : p.2 = keyCount p.1 t := by
  induction t with
  | nil => simp at hp
  | cons q rest ih =>
    obtain ⟨a, c⟩ := q
    rcases List.mem_cons.mp hp with rfl | hp2
    · rw [keyCount, if_pos rfl]
    · rw [List.map_cons] at h
      have h2 := List.nodup_cons.mp h
      rw [keyCount]
      have hne : ¬(a = p.1) := by
        intro h3
        have h4 : p.1 ∈ rest.map Prod.fst := List.mem_map_of_mem Prod.fst hp2
        rw [← h3] at h4
        exact h2.1 h4
      rw [if_neg hne]
      exact ih h2.2 hp2

lemma mem_keys_iff_pos (t : List (String × ℕ)) (hpos : ∀ p ∈ t, 0 < p.2) (k : String) :
    k ∈ t.map Prod.fst ↔ 0 < keyCount k t := by
  induction t with
  | nil => simp [keyCount]
  | cons q rest ih =>
    obtain ⟨a, c⟩ := q
    rw [keyCount]
    by_cases ha : a = k
    · subst ha
      simp [if_pos rfl, hpos (a, c) (List.mem_cons_self _ _)]
    · rw [if_neg ha]
      simp only [List.map_cons, List.mem_cons]
      constructor
      · intro h2
        rcases h2 with h2 | h2
        · exact absurd h2.symm ha
        · exact (ih (fun p hp => hpos p (List.mem_cons_of_mem _ hp))).mp h2
      · intro h2
        exact Or.inr ((ih (fun p hp => hpos p (List.mem_cons_of_mem _ hp))).mpr h2)

lemma analytics_pairwise_total (l : List GroupStat) :
    l.Pairwise (fun a b => analyticsCmp a b ≤ 0 ∨ analyticsCmp b a ≤ 0) := by
  induction l with
  | nil => simp
  | cons x xs ih =>
    refine List.pairwise_cons.mpr ⟨fun y _ => ?_, ih⟩
    rw [analyticsCmp, analyticsCmp]
    omega

/-- C4: for each grouping field the booked-leads breakdown has pairwise
distinct group names; every row's count is the number of leads whose
(null/undefined/empty-to-"Unknown") key equals its name, its percentage is
`count / collection size * 100`, and its count is positive; a name appears
iff some lead has that key; and rows are sorted by descending count. -/
theorem analytics_breakdown_spec (g : GroupField) (leads : List Lead) :
    ((analyticsBreakdown g leads).map GroupStat.name).Nodup ∧
    (∀ st ∈ analyticsBreakdown g leads,
      st.count = leads.countP (fun l => decide (groupKey g l = st.name)) ∧
      st.percentage = (st.count : ℚ) / (leads.length : ℚ) * 100 ∧
      0 < st.count) ∧
    (∀ k : String,
      (∃ st ∈ analyticsBreakdown g leads, st.name = k) ↔ ∃ l ∈ leads, groupKey g l = k) ∧
    (analyticsBreakdown g leads).Pairwise (fun a b => b.count ≤ a.count) := by
  have hperm : (analyticsBreakdown g leads).Perm
      ((groupCounts g leads).map fun p => (⟨p.1, p.2, (p.2 : ℚ) / (leads.length : ℚ) * 100⟩ : GroupStat)) :=
    sortByCmp_perm _ _
  have hnames : (((groupCounts g leads).map fun p =>
      (⟨p.1, p.2, (p.2 : ℚ) / (leads.length : ℚ) * 100⟩ : GroupStat)).map GroupStat.name) =
      (groupCounts g leads).map Prod.fst := by
    rw [List.map_map]
    rfl
  refine ⟨?_, ?_, ?_, ?_⟩
  · rw [(hperm.map GroupStat.name).nodup_iff, hnames]
    exact groupCounts_nodup g leads
  · intro st hst
    have hst2 := hperm.mem_iff.mp hst
    obtain ⟨p, hp, rfl⟩ := List.mem_map.mp hst2
    refine ⟨?_, rfl, groupCounts_pos g leads p hp⟩
    have := keyCount_of_mem (groupCounts g leads) (groupCounts_nodup g leads) p hp
    rw [groupCounts_keyCount] at this
    exact this
  · intro k
    constructor
    · intro ⟨st, hst, hname⟩
      obtain ⟨p, hp, rfl⟩ := List.mem_map.mp (hperm.mem_iff.mp hst)
      have hkmem : k ∈ (groupCounts g leads).map Prod.fst := by
        rw [← hname]
        exact List.mem_map_of_mem Prod.fst hp
      have hpos := (mem_keys_iff_pos _ (groupCounts_pos g leads) k).mp hkmem
      rw [groupCounts_keyCount] at hpos
      obtain ⟨l, hl, hlk⟩ := List.countP_pos_iff.mp hpos
      exact ⟨l, hl, of_decide_eq_true hlk⟩
    · intro ⟨l, hl, hlk⟩
      have hpos : 0 < leads.countP (fun l2 => decide (groupKey g l2 = k)) :=
        List.countP_pos_iff.mpr ⟨l, hl, decide_eq_true hlk⟩
      rw [← groupCounts_keyCount g leads k] at hpos
      have hkmem := (mem_keys_iff_pos _ (groupCounts_pos g leads) k).mpr hpos
      obtain ⟨p, hp, hpk⟩ := List.mem_map.mp hkmem
      refine ⟨⟨p.1, p.2, (p.2 : ℚ) / (leads.length : ℚ) * 100⟩, ?_, hpk⟩
      refine hperm.mem_iff.mpr (List.mem_map.mpr ⟨p, hp, rfl⟩)
  · have hsorted := sortByCmp_pairwise analyticsCmp
      ((groupCounts g leads).map fun p =>
        (⟨p.1, p.2, (p.2 : ℚ) / (leads.length : ℚ) * 100⟩ : GroupStat))
      (analytics_pairwise_total _)
      (fun a b c h1 h2 => by rw [analyticsCmp] at *; omega)
    exact hsorted.imp fun h => by rw [analyticsCmp] at h; omega

/-- Witness for C4 on a concrete collection with a null industry and an
empty-string industry (both bucket under "Unknown"). -/
theorem analytics_breakdown_spec_witness :
    ((analyticsBreakdown .industry [gapLead, unknownIndustryLead, emptyIndustryLead]).map
      GroupStat.name).Nodup ∧
    (∀ st ∈ analyticsBreakdown .industry [gapLead, unknownIndustryLead, emptyIndustryLead],
      st.count = ([gapLead, unknownIndustryLead, emptyIndustryLead] : List Lead).countP
        (fun l => decide (groupKey .industry l = st.name)) ∧
      st.percentage = (st.count : ℚ) /
        (([gapLead, unknownIndustryLead, emptyIndustryLead] : List Lead).length : ℚ) * 100 ∧
      0 < st.count) ∧
    (∀ k : String,
      (∃ st ∈ analyticsBreakdown .industry [gapLead, unknownIndustryLead, emptyIndustryLead],
        st.name = k) ↔
      ∃ l ∈ ([gapLead, unknownIndustryLead, emptyIndustryLead] : List Lead),
        groupKey .industry l = k) ∧
    (analyticsBreakdown .industry [gapLead, unknownIndustryLead, emptyIndustryLead]).Pairwise
      (fun a b => b.count ≤ a.count) :=
  analytics_breakdown_spec .industry [gapLead, unknownIndustryLead, emptyIndustryLead]

/-- C9: a replied/booked toggle sends the field value plus a refreshed
`last_updated_at`, with `booked_at` set to the update time when setting
booked true and set to null on the booked-clearing path
(`updateBookedStatus`); on success the lead is removed from the local
collection without a re-fetch, on failure the collection is unchanged and
the error surfaced, and in both cases the in-flight flag is cleared so the
toggle can be retried. -/
theorem optimistic_update_contract (st : ViewState) (leadId : String) (field : UpdField)
    (value : Bool) (now msg : String) :
    (updateLeadStatusData field value now).last_updated_at = now ∧
    (field = .replied → (updateLeadStatusData field value now).replied = some value ∧
      (updateLeadStatusData field value now).booked = none ∧
      (updateLeadStatusData field value now).booked_at = none) ∧
    (field = .booked → (updateLeadStatusData field value now).booked = some value ∧
      (updateLeadStatusData field value now).replied = none) ∧
    (field = .booked → value = true →
      (updateLeadStatusData field value now).booked_at = some (some now)) ∧
    updateBookedStatusData now =
      { replied := none, booked := some false, booked_at := some none,
        last_updated_at := now } ∧
    (finishUpdate (startUpdate st leadId) leadId (.ok ())).leads =
      st.leads.filter (fun l => decide (l.id ≠ leadId)) ∧
    (finishUpdate (startUpdate st leadId) leadId (.ok ())).error = st.error ∧
    (finishUpdate (startUpdate st leadId) leadId (.error msg)).leads = st.leads ∧
    (finishUpdate (startUpdate st leadId) leadId (.error msg)).error = some msg ∧
    leadId ∉ (finishUpdate (startUpdate st leadId) leadId (.ok ())).updating ∧
    leadId ∉ (finishUpdate (startUpdate st leadId) leadId (.error msg)).updating := by
  refine ⟨rfl, ?_, ?_, ?_, rfl, rfl, rfl, rfl, rfl, ?_, ?_⟩
  · intro hf
    subst hf
    exact ⟨rfl, rfl, rfl⟩
  · intro hf
    subst hf
    exact ⟨rfl, rfl⟩
  · intro hf hv
    subst hf
    subst hv
    rfl
  · intro hmem
    rw [finishUpdate] at hmem
    have := List.of_mem_filter hmem
    simp at this
  · intro hmem
    rw [finishUpdate] at hmem
    have := List.of_mem_filter hmem
    simp at this

/-- Witness for C9 at a concrete state, toggling booked on `gapLead`. -/
theorem optimistic_update_contract_witness :
    (updateLeadStatusData .booked true "2024-02-01T00:00:00Z").last_updated_at =
      "2024-02-01T00:00:00Z" ∧
    (UpdField.booked = .replied →
      (updateLeadStatusData .booked true "2024-02-01T00:00:00Z").replied = some true ∧
      (updateLeadStatusData .booked true "2024-02-01T00:00:00Z").booked = none ∧
      (updateLeadStatusData .booked true "2024-02-01T00:00:00Z").booked_at = none) ∧
    (UpdField.booked = .booked →
      (updateLeadStatusData .booked true "2024-02-01T00:00:00Z").booked = some true ∧
      (updateLeadStatusData .booked true "2024-02-01T00:00:00Z").replied = none) ∧
    (UpdField.booked = .booked → true = true →
      (updateLeadStatusData .booked true "2024-02-01T00:00:00Z").booked_at =
        some (some "2024-02-01T00:00:00Z")) ∧
    updateBookedStatusData "2024-02-01T00:00:00Z" =
      { replied := none, booked := some false, booked_at := some none,
        last_updated_at := "2024-02-01T00:00:00Z" } ∧
    (finishUpdate (startUpdate demoState "lead-1") "lead-1" (.ok ())).leads =
      demoState.leads.filter (fun l => decide (l.id ≠ "lead-1")) ∧
    (finishUpdate (startUpdate demoState "lead-1") "lead-1" (.ok ())).error =
      demoState.error ∧
    (finishUpdate (startUpdate demoState "lead-1") "lead-1" (.error "boom")).leads =
      demoState.leads ∧
    (finishUpdate (startUpdate demoState "lead-1") "lead-1" (.error "boom")).error =
      some "boom" ∧
    "lead-1" ∉ (finishUpdate (startUpdate demoState "lead-1") "lead-1" (.ok ())).updating ∧
    "lead-1" ∉ (finishUpdate (startUpdate demoState "lead-1") "lead-1"
      (.error "boom")).updating :=
  optimistic_update_contract demoState "lead-1" .booked true "2024-02-01T00:00:00Z" "boom"

/-- C10 (frame property): after a successful toggle targeting id `X`, the
local collection is exactly the previous one with the leads of id `X`
removed: it is a sublist (relative order preserved, elements unmodified),
no remaining lead has id `X`, every lead with a different id keeps its
multiplicity, and every lead that had id `X` is gone. -/
theorem optimistic_removal_frame (st : ViewState) (leadId : String) :
    ((finishUpdate (startUpdate st leadId) leadId (.ok ())).leads).Sublist st.leads ∧
    (∀ l ∈ (finishUpdate (startUpdate st leadId) leadId (.ok ())).leads, l.id ≠ leadId) ∧
    (∀ l : Lead, l.id ≠ leadId →
      ((finishUpdate (startUpdate st leadId) leadId (.ok ())).leads).count l =
        st.leads.count l) ∧
    (∀ l ∈ st.leads, l.id = leadId →
      l ∉ (finishUpdate (startUpdate st leadId) leadId (.ok ())).leads) := by
  have hleads : (finishUpdate (startUpdate st leadId) leadId (.ok ())).leads =
      st.leads.filter fun l => decide (l.id ≠ leadId) := rfl
  rw [hleads]
  refine ⟨List.filter_sublist _, ?_, ?_, ?_⟩
  · intro l hl
    have h2 := List.of_mem_filter hl
    exact of_decide_eq_true h2
  · intro l hne
    exact List.count_filter (decide_eq_true hne)
  · intro l hl heq hmem
    have h2 := List.of_mem_filter hmem
    exact (of_decide_eq_true h2) heq

/-- Witness for C10 at a concrete state, removing id "lead-1". -/
theorem optimistic_removal_frame_witness :
    ((finishUpdate (startUpdate demoState "lead-1") "lead-1" (.ok ())).leads).Sublist
      demoState.leads ∧
    (∀ l ∈ (finishUpdate (startUpdate demoState "lead-1") "lead-1" (.ok ())).leads,
      l.id ≠ "lead-1") ∧
    (∀ l : Lead, l.id ≠ "lead-1" →
      ((finishUpdate (startUpdate demoState "lead-1") "lead-1" (.ok ())).leads).count l =
        demoState.leads.count l) ∧
    (∀ l ∈ demoState.leads, l.id = "lead-1" →
      l ∉ (finishUpdate (startUpdate demoState "lead-1") "lead-1" (.ok ())).leads) :=
  optimistic_removal_frame demoState "lead-1"
